import Mathlib

/-!
Verification development for the Muted-Spends personal-finance client.

The core under study is the recurring-subscription materialization engine
(`checkAndProcessSubscriptions`, called `materialize` in the specification)
together with its supporting service functions (`seedDefaultLookups`,
`listenToLookups`, `deleteLookupItem`), the subscription form handler
(`handleSubmit` in `Subscriptions.tsx`), and the session-start wiring in
`App.tsx`.

Dates are embedded as plain (year, month, day) triples of naturals; money
amounts as rationals; Firestore collections as in-memory lists; fallible
service calls as `Except`; the missing-value behaviour of JS (`undefined`,
`NaN`) as `Option`.
-/

/-- Billing cadence of a subscription: the `billingCycle` enum of the data
model, with values `monthly` and `yearly`. -/
inductive BillingCycle
  | monthly
  | yearly
deriving DecidableEq

/-- Subscription record: a recurring-charge template as stored by the
Subscriptions page. The `include` flag marks the subscription active. -/
structure Subscription where
  name : String
  amount : ℚ
  billingCycle : BillingCycle
  billingDay : Nat
  billingMonth : Nat
  category : String
  paymentMethod : String
  «include» : Bool
deriving DecidableEq

/-- Calendar date used as the injectable current date `now`. -/
structure SimpleDate where
  year : Nat
  month : Nat
  day : Nat
deriving DecidableEq

/-- Transaction type enum from the service layer. -/
inductive TxType
  | income
  | expense
deriving DecidableEq

/-- Realized transaction record. The source stores a full `timestamp`; the
materialization logic and all properties below only consult its calendar
date, embedded here as the `year`/`month`/`day` fields. The `category` and
`paymentMethod` fields are optional in the source data model. -/
structure Transaction where
  type : TxType
  description : String
  amount : ℚ
  year : Nat
  month : Nat
  day : Nat
  category : Option String
  paymentMethod : Option String
deriving DecidableEq

/-- Modelled from the spec: `checkAndProcessSubscriptions` is imported and
called by `App.tsx` but its definition is missing from the observed source
files, so the due-ness test follows spec section 4.1 step 2: a monthly
subscription is due from its billing day onward in the current month; a
yearly one only when the current month equals its billing month and the
billing day has been reached. -/
def isDue (s : Subscription) (now : SimpleDate) : Bool :=
  match s.billingCycle with
  | .monthly => decide (s.billingDay ≤ now.day)
  | .yearly => (now.month == s.billingMonth) && decide (s.billingDay ≤ now.day)

/-- Modelled from the spec: malformed-subscription guard of spec section 7 —
a subscription whose `billingDay` lies outside 1..31 is skipped, and the
rest of the pass continues. -/
def isWellFormed (s : Subscription) : Bool :=
  decide (1 ≤ s.billingDay) && decide (s.billingDay ≤ 31)

/-- Modelled from the spec: duplicate-detection predicate of spec section 4.1
step 3 — an existing transaction counts as the materialization of
subscription `s` for the current period when its description equals the
subscription name, its category and payment method match, and its timestamp
falls in the (year, month) of `now`. -/
def txMatches (s : Subscription) (now : SimpleDate) (t : Transaction) : Bool :=
  (t.description == s.name) && (t.category == some s.category) &&
    (t.paymentMethod == some s.paymentMethod) &&
    (t.year == now.year) && (t.month == now.month)

/-- Modelled from the spec: the transaction created for a due subscription,
spec section 4.1 step 4 — type expense, amount and labels copied from the
subscription, timestamp stamped with `now`. -/
def materializedTx (s : Subscription) (now : SimpleDate) : Transaction :=
  { type := .expense
    description := s.name
    amount := s.amount
    year := now.year
    month := now.month
    day := now.day
    category := some s.category
    paymentMethod := some s.paymentMethod }

/-- Modelled from the spec: one step of the materialization pass over the
running (created-count, transaction-store) state — an active, well-formed,
due subscription with no matching transaction in the store gets exactly one
new transaction appended and the count incremented; otherwise the state is
left unchanged. -/
def processSub (now : SimpleDate) (acc : Nat × List Transaction)
    (s : Subscription) : Nat × List Transaction :=
  if s.«include» && isWellFormed s && isDue s now &&
      !(acc.2.any (txMatches s now)) then
    (acc.1 + 1, acc.2 ++ [materializedTx s now])
  else acc

/-- Modelled from the spec: the Materializer entry point
`materialize(userId, now)` (the missing `checkAndProcessSubscriptions`) —
scans the user's subscriptions sequentially against the transaction store,
creates one transaction per due, not-yet-materialized subscription, and
returns the number created together with the updated store. The per-sub
duplicate query of the source pattern sees transactions created earlier in
the same pass, which the sequential fold reflects. -/
def materialize (subs : List Subscription) (txs : List Transaction)
    (now : SimpleDate) : Nat × List Transaction :=
  subs.foldl (processSub now) (0, txs)

/-- Shorthand for the three conditions under which a subscription is
processed at all: active, well-formed and due. -/
def activeDue (s : Subscription) (now : SimpleDate) : Bool :=
  s.«include» && isWellFormed s && isDue s now

/-- One firing of the first auth listener registered in App.tsx (lines 56-74):
it invokes the materializer only when a user is signed in and the
hasCheckedSubs latch is still unset, and it sets the latch before awaiting.
Returns the latch value after the firing and the number of
checkAndProcessSubscriptions invocations this listener performed. -/
def listenerOneStep (latch : Bool) (user : Bool) : Bool × Nat :=
  if user && !latch then (true, 1) else (latch, 0)

/-- One auth-state event as App.tsx handles it: all three registered
listeners fire. The second (lines 76-94) and third (lines 96-107) listeners
never consult the latch and invoke the materializer whenever a user is
signed in. -/
def authEventStep (latch : Bool) (user : Bool) : Bool × Nat :=
  ((listenerOneStep latch user).1,
    (listenerOneStep latch user).2 +
      (if user then 1 else 0) + (if user then 1 else 0))

/-- Total materializer invocations over a list of auth events, threading the
latch. -/
def sessionInvocationsAux : Bool → List Bool → Nat
  | _, [] => 0
  | latch, e :: es =>
      (authEventStep latch e).2 +
        sessionInvocationsAux (authEventStep latch e).1 es

/-- Number of checkAndProcessSubscriptions invocations over a session's
sequence of auth-state events (an entry is true when the event carries a
signed-in user), starting with the latch unset as on component mount. -/
def sessionInvocations (events : List Bool) : Nat :=
  sessionInvocationsAux false events

/-- What becomes of one session-start caller's invocation in App.tsx. -/
inductive CallerOutcome
  | skipped
  | succeeded
  | caughtLogged
  | uncaught
deriving DecidableEq

/-- Error-handling behaviour of the three session-start callers in App.tsx
for a single auth event, given the latch state, whether a user is signed in,
and whether checkAndProcessSubscriptions fails: the first caller (latch
guard, try/catch with console log), the second (try/catch with log), and the
third, which awaits the call with no try/catch at all, so a failure there
escapes uncaught. -/
def callerOutcomes (latch user fails : Bool) :
    CallerOutcome × CallerOutcome × CallerOutcome :=
  (if user && !latch then
      (if fails then .caughtLogged else .succeeded) else .skipped,
   if user then (if fails then .caughtLogged else .succeeded) else .skipped,
   if user then (if fails then .uncaught else .succeeded) else .skipped)

/-- Lookup item (category or payment method) as delivered by the service
layer listeners. -/
structure LookupItem where
  id : String
  name : String
  color : String
  isDefault : Bool
deriving DecidableEq

/-- The two dynamic lookup collections of the service layer. -/
inductive LookupType
  | categories
  | paymentMethods
deriving DecidableEq

/-- Transaction field checked by deleteLookupItem for links to a lookup item:
category for the categories collection, paymentMethod for payment methods. -/
def lookupField (lt : LookupType) (t : Transaction) : Option String :=
  match lt with
  | .categories => t.category
  | .paymentMethods => t.paymentMethod

/-- Singular form of the collection name as computed by the source with
slice(0, -1) for the error message. -/
def lookupSingular (lt : LookupType) : String :=
  match lt with
  | .categories => "categorie"
  | .paymentMethods => "paymentMethod"

/-- deleteLookupItem from firebaseService.ts: refuses to delete the last
remaining item of the collection, refuses to delete an item whose name is
referenced by any transaction in the corresponding field, and otherwise
deletes exactly the document with the given id. Thrown errors are embedded
as Except.error, in which case the collection is untouched. -/
def deleteLookupItem (lt : LookupType) (items : List LookupItem)
    (txs : List Transaction) (id name : String) :
    Except String (List LookupItem) :=
  if items.length ≤ 1 then
    Except.error ("Cannot delete \"" ++ name ++
      "\". You must have at least one " ++ lookupSingular lt ++ " configured.")
  else if txs.any (fun t => lookupField lt t == some name) then
    Except.error ("Cannot delete \"" ++ name ++ "\". It is linked to " ++
      toString (txs.filter (fun t => lookupField lt t == some name)).length ++
      " transaction" ++
      (if (txs.filter (fun t => lookupField lt t == some name)).length == 1
        then "" else "s") ++
      " in the main Transactions table. Please update those transactions first.")
  else
    Except.ok (items.filter (fun it => !(it.id == id)))

/-- Raw lookup document as read from a snapshot in listenToLookups: the
isDefault field may be absent, which the source coalesces with false. -/
structure RawLookupDoc where
  id : String
  name : String
  color : String
  isDefault : Option Bool

/-- Mapping of a raw document to the delivered LookupItem, as in the
snapshot.docs.map step of listenToLookups. -/
def toLookupItem (d : RawLookupDoc) : LookupItem :=
  { id := d.id, name := d.name, color := d.color,
    isDefault := d.isDefault.getD false }

/-- Comparator of listenToLookups as a boolean no-later-than relation:
default items sort before non-default ones, and otherwise the items compare
by name (localeCompare embedded as the standard string order). -/
def lookupLE (a b : LookupItem) : Bool :=
  if a.isDefault && !b.isDefault then true
  else if !a.isDefault && b.isDefault then false
  else decide (a.name ≤ b.name)

/-- List of lookup items delivered to a listenToLookups subscriber for one
snapshot: the mapped documents sorted with the comparator above (the JS
Array.sort with a consistent comparator, embedded as a merge sort). -/
def deliveredLookups (docs : List RawLookupDoc) : List LookupItem :=
  (docs.map toLookupItem).mergeSort lookupLE

/-- Hard-coded default lookup entry from LookupContext. -/
structure DefaultLookup where
  name : String
  color : String
  isDefault : Bool
deriving DecidableEq

/-- defaultCategories from LookupContext, seeded for new users. -/
def defaultCategories : List DefaultLookup :=
  [⟨"Groceries", "#4ade80", true⟩, ⟨"Dining", "#facc15", false⟩,
   ⟨"Travel", "#60a5fa", false⟩, ⟨"Rent", "#c084fc", false⟩,
   ⟨"Bills", "#f87171", false⟩, ⟨"Misc", "#94a3b8", false⟩,
   ⟨"Shopping", "#ff7849", false⟩, ⟨"Entertainment", "#8b5cf6", false⟩]

/-- defaultPaymentMethods from LookupContext, seeded for new users. -/
def defaultPaymentMethods : List DefaultLookup :=
  [⟨"Amex Credit Card", "#2D72C0", true⟩, ⟨"Zolve Mastercard", "#EB001B", false⟩,
   ⟨"Debit Card", "#FF9900", false⟩, ⟨"Apple Cash", "#00A859", false⟩,
   ⟨"Venmo", "#008CFF", false⟩, ⟨"Other", "#A0AEC0", false⟩,
   ⟨"Zelle", "#f7b539", false⟩]

/-- Lookup document as written by the seeding loop: the source spreads the
default entry and overrides isDefault with (index === 0). -/
structure SeededLookup where
  name : String
  color : String
  isDefault : Bool
deriving DecidableEq

/-- The documents the seeding loop adds for one default list, with isDefault
true exactly on the first entry. -/
def seedDocs (l : List DefaultLookup) : List SeededLookup :=
  l.enum.map (fun p => ⟨p.2.name, p.2.color, p.1 == 0⟩)

/-- Per-user backend state relevant to seeding: whether the seed-status
document exists, the value of its seeded field (false when absent), and the
two lookup collections. -/
structure UserSeedState where
  seedDocExists : Bool
  seededFlag : Bool
  categories : List SeededLookup
  paymentMethods : List SeededLookup
deriving DecidableEq

/-- seedDefaultLookups from firebaseService.ts as a state transformer over a
sequential successful run: return unchanged when the seed-status document
already records seeded = true; otherwise set the flag (the source does this
first, before inserting, to block concurrent duplicates) and append the
default categories and payment methods. -/
def seedDefaultLookups (s : UserSeedState) : UserSeedState :=
  if s.seedDocExists && s.seededFlag then s
  else
    { seedDocExists := true
      seededFlag := true
      categories := s.categories ++ seedDocs defaultCategories
      paymentMethods := s.paymentMethods ++ seedDocs defaultPaymentMethods }

/-- Form state of the Subscriptions page: the text inputs hold raw strings,
the cycle selector holds the enum, and the include checkbox a boolean. -/
structure SubFormState where
  name : String
  amount : String
  billingDay : String
  billingCycle : BillingCycle
  billingMonth : String
  category : String
  paymentMethod : String
  «include» : Bool

/-- Decimal reading of a character run: defined when the run is a nonempty
string of digits. -/
def parseNatList (l : List Char) : Option Nat :=
  if l ≠ [] ∧ l.all (fun c => c.isDigit) then
    some (l.foldl (fun n c => n * 10 + (c.toNat - 48)) 0)
  else none

/-- JS parseInt on the digit strings produced by the form number inputs and
the month dropdown; none embeds the NaN result on unparsable input. -/
def parseIntJS (s : String) : Option Nat :=
  parseNatList s.data

/-- JS parseFloat on the decimal strings of the amount input (digits with an
optional single decimal point); none embeds NaN. -/
def parseFloatJS (s : String) : Option ℚ :=
  match s.data.dropWhile (fun c => !(c == '.')) with
  | [] => (parseNatList s.data).map (fun n => (n : ℚ))
  | _ :: f =>
    match parseNatList (s.data.takeWhile (fun c => !(c == '.'))),
        parseNatList f with
    | some a, some b => some ((a : ℚ) + (b : ℚ) / ((10 : ℚ) ^ f.length))
    | _, _ => none

/-- Subscription payload as built by handleSubmit; numeric fields are
options because the source stores the raw parseInt/parseFloat results. -/
structure SubscriptionData where
  name : String
  amount : Option ℚ
  billingDay : Option Nat
  billingCycle : BillingCycle
  billingMonth : Option Nat
  category : String
  paymentMethod : String
  «include» : Bool
deriving DecidableEq

/-- handleSubmit of the Subscriptions page: bail out when the name or amount
input is empty, otherwise build the payload, storing billingMonth as the
parsed selected month for yearly subscriptions and the constant 1 for
monthly ones. The same payload is used for both the create and the update
path. -/
def handleSubmit (st : SubFormState) : Option SubscriptionData :=
  if st.name = "" ∨ st.amount = "" then none
  else some
    { name := st.name
      amount := parseFloatJS st.amount
      billingDay := parseIntJS st.billingDay
      billingCycle := st.billingCycle
      billingMonth :=
        if st.billingCycle = BillingCycle.yearly
        then parseIntJS st.billingMonth else some 1
      category := st.category
      paymentMethod := st.paymentMethod
      «include» := st.«include» }

/-- Sample monthly subscription used to witness the monthly due-ness
theorem. -/
def sampleMonthlySub : Subscription :=
  { name := "Netflix", amount := 1549/100, billingCycle := .monthly,
    billingDay := 15, billingMonth := 1, category := "Entertainment",
    paymentMethod := "Amex Credit Card", «include» := true }

/-- Sample yearly subscription used to witness the yearly due-ness
theorem. -/
def sampleYearlySub : Subscription :=
  { name := "Renters Insurance", amount := 180, billingCycle := .yearly,
    billingDay := 10, billingMonth := 3, category := "Bills",
    paymentMethod := "Debit Card", «include» := true }

/-- Sample paused subscription used to witness the paused-skip theorem. -/
def samplePausedSub : Subscription :=
  { name := "Gym", amount := 30, billingCycle := .monthly,
    billingDay := 1, billingMonth := 1, category := "Misc",
    paymentMethod := "Debit Card", «include» := false }

/-- Sample date 2024-06-15 used by the witnesses. -/
def sampleDate : SimpleDate :=
  { year := 2024, month := 6, day := 15 }

/-- Sample date 2024-03-10 used by the yearly witness. -/
def sampleMarchDate : SimpleDate :=
  { year := 2024, month := 3, day := 10 }

/-- Sample filled form state used to witness the handleSubmit theorem. -/
def sampleForm : SubFormState :=
  { name := "Spotify", amount := "10", billingDay := "15",
    billingCycle := .yearly, billingMonth := "6", category := "Bills",
    paymentMethod := "Venmo", «include» := true }

/-- Payload handleSubmit builds from the sample form state. -/
def sampleData : SubscriptionData :=
  { name := "Spotify", amount := parseFloatJS "10",
    billingDay := parseIntJS "15", billingCycle := .yearly,
    billingMonth := parseIntJS "6", category := "Bills",
    paymentMethod := "Venmo", «include» := true }

lemma processSub_eq_append (now : SimpleDate) (acc : Nat × List Transaction)
    (s : Subscription) : ∃ ts, (processSub now acc s).2 = acc.2 ++ ts := by
  unfold processSub
  split
  · exact ⟨[materializedTx s now], rfl⟩
  · exact ⟨[], (List.append_nil _).symm⟩

lemma foldl_eq_append (now : SimpleDate) (subs : List Subscription) :
    ∀ acc : Nat × List Transaction,
      ∃ ts, (subs.foldl (processSub now) acc).2 = acc.2 ++ ts := by
  induction subs with
  | nil => exact fun acc => ⟨[], (List.append_nil _).symm⟩
  | cons s rest ih =>
    intro acc
    obtain ⟨ts1, h1⟩ := processSub_eq_append now acc s
    obtain ⟨ts2, h2⟩ := ih (processSub now acc s)
    refine ⟨ts1 ++ ts2, ?_⟩
    rw [List.foldl_cons, h2, h1, List.append_assoc]

lemma any_mono_append (p : Transaction → Bool) (l ts : List Transaction)
    (h : l.any p = true) : (l ++ ts).any p = true := by
  simp [List.any_append, h]

lemma txMatches_materializedTx_self (s : Subscription) (now : SimpleDate) :
    txMatches s now (materializedTx s now) = true := by
  simp [txMatches, materializedTx]

lemma processSub_matches (now : SimpleDate) (acc : Nat × List Transaction)
    (s : Subscription) (h : activeDue s now = true) :
    ((processSub now acc s).2).any (txMatches s now) = true := by
  cases hany : acc.2.any (txMatches s now) with
  | false =>
    have hstep : processSub now acc s =
        (acc.1 + 1, acc.2 ++ [materializedTx s now]) := by
      unfold processSub
      simp only [activeDue, Bool.and_eq_true] at h
      simp [h.1.1, h.1.2, h.2, hany]
    rw [hstep]
    simp [List.any_append, txMatches_materializedTx_self]
  | true =>
    obtain ⟨ts, hts⟩ := processSub_eq_append now acc s
    rw [hts]
    exact any_mono_append _ _ _ hany

lemma foldl_matches (now : SimpleDate) (subs : List Subscription) :
    ∀ (acc : Nat × List Transaction) (s : Subscription), s ∈ subs →
      activeDue s now = true →
      ((subs.foldl (processSub now) acc).2).any (txMatches s now) = true := by
  induction subs with
  | nil => intro acc s h; cases h
  | cons hd rest ih =>
    intro acc s hmem hact
    rw [List.foldl_cons]
    rcases List.mem_cons.mp hmem with heq | hmem'
    · subst heq
      obtain ⟨ts, hts⟩ := foldl_eq_append now rest (processSub now acc s)
      rw [hts]
      exact any_mono_append _ _ _ (processSub_matches now acc s hact)
    · exact ih _ s hmem' hact

lemma processSub_skip (now : SimpleDate) (acc : Nat × List Transaction)
    (s : Subscription)
    (h : activeDue s now = true → acc.2.any (txMatches s now) = true) :
    processSub now acc s = acc := by
  unfold processSub
  cases hi : s.«include» with
  | false => simp [hi]
  | true =>
    cases hw : isWellFormed s with
    | false => simp [hi, hw]
    | true =>
      cases hd : isDue s now with
      | false => simp [hi, hw, hd]
      | true =>
        have hany := h (by simp [activeDue, hi, hw, hd])
        simp [hany]

lemma foldl_skip (now : SimpleDate) (subs : List Subscription) :
    ∀ acc : Nat × List Transaction,
      (∀ s ∈ subs, activeDue s now = true →
        acc.2.any (txMatches s now) = true) →
      subs.foldl (processSub now) acc = acc := by
  induction subs with
  | nil => intro acc _; rfl
  | cons hd rest ih =>
    intro acc h
    rw [List.foldl_cons,
      processSub_skip now acc hd (h hd (List.mem_cons_self hd rest))]
    exact ih acc (fun s hs => h s (List.mem_cons_of_mem hd hs))

lemma txMatches_key_eq (s s' : Subscription) (now : SimpleDate)
    (h : txMatches s now (materializedTx s' now) = true) :
    txMatches s now = txMatches s' now := by
  simp only [txMatches, materializedTx, Bool.and_eq_true, beq_iff_eq,
    Option.some.injEq, decide_eq_true_eq, and_true] at h
  funext t
  simp only [txMatches, h.1.1, h.1.2, h.2]

lemma processSub_countP (now : SimpleDate) (s : Subscription)
    (acc : Nat × List Transaction) (s' : Subscription) :
    ((processSub now acc s').2).countP (txMatches s now) ≤
      max (acc.2.countP (txMatches s now)) 1 := by
  unfold processSub
  split
  case isTrue hcond =>
    simp only [List.countP_append]
    cases hkey : txMatches s now (materializedTx s' now) with
    | false =>
      have h0 : List.countP (txMatches s now) [materializedTx s' now] = 0 := by
        simp [List.countP_cons, hkey]
      rw [h0, Nat.add_zero]
      exact le_max_left _ _
    | true =>
      have heq := txMatches_key_eq s s' now hkey
      have hzero : acc.2.countP (txMatches s now) = 0 := by
        rw [heq]
        have hany : acc.2.any (txMatches s' now) = false := by
          simp only [Bool.and_eq_true] at hcond
          have := hcond.2
          rwa [Bool.not_eq_true'] at this
        rw [List.countP_eq_zero]
        intro t ht
        have := (List.any_eq_false).mp hany t ht
        simpa using this
      have h1 : List.countP (txMatches s now) [materializedTx s' now] = 1 := by
        simp [List.countP_cons, hkey]
      rw [hzero, h1, Nat.zero_add]
      exact le_max_right _ _
  case isFalse => exact le_max_left _ _

lemma foldl_countP (now : SimpleDate) (s : Subscription)
    (subs : List Subscription) :
    ∀ acc : Nat × List Transaction,
      ((subs.foldl (processSub now) acc).2).countP (txMatches s now) ≤
        max (acc.2.countP (txMatches s now)) 1 := by
  induction subs with
  | nil => intro acc; exact le_max_left _ _
  | cons hd rest ih =>
    intro acc
    rw [List.foldl_cons]
    refine le_trans (ih (processSub now acc hd)) ?_
    have h1 := max_le_max_right 1 (processSub_countP now s acc hd)
    rwa [max_assoc, max_self] at h1

/-- C1: calling materialize twice in sequence with the same inputs and no
intervening state change creates transactions only on the first call — the
second call returns count 0 and leaves the store unchanged — and for every
subscription key the two calls leave at most max(initial, 1) matching
transactions for the current period, so at most one transaction is created
per (subscription, period) pair. -/
theorem materialize_idempotent (subs : List Subscription)
    (txs : List Transaction) (now : SimpleDate) :
    materialize subs (materialize subs txs now).2 now =
      (0, (materialize subs txs now).2) ∧
    ∀ s : Subscription,
      ((materialize subs txs now).2).countP (txMatches s now) ≤
        max (txs.countP (txMatches s now)) 1 := by
  constructor
  · unfold materialize
    exact foldl_skip now subs (0, _)
      (fun s hs hact => foldl_matches now subs (0, txs) s hs hact)
  · intro s
    exact foldl_countP now s subs (0, txs)

/-- C3: a monthly active subscription with a valid billing day is treated as
due exactly when the current day has reached the billing day and no matching
transaction exists in the current (year, month): materializing it creates
exactly one transaction in that case and none otherwise — in particular none
before the billing day. -/
theorem monthly_dueness (s : Subscription) (txs : List Transaction)
    (now : SimpleDate) (hinc : s.«include» = true)
    (hcyc : s.billingCycle = BillingCycle.monthly)
    (hd1 : 1 ≤ s.billingDay) (hd2 : s.billingDay ≤ 31) :
    materialize [s] txs now =
      if s.billingDay ≤ now.day ∧ txs.any (txMatches s now) = false
      then (1, txs ++ [materializedTx s now]) else (0, txs) := by
  unfold materialize
  rw [List.foldl_cons, List.foldl_nil]
  unfold processSub
  have hwf : isWellFormed s = true := by simp [isWellFormed, hd1, hd2]
  by_cases hday : s.billingDay ≤ now.day
  · cases hany : txs.any (txMatches s now) with
    | false => simp [hinc, hwf, isDue, hcyc, hday, hany]
    | true => simp [hinc, hwf, isDue, hcyc, hday, hany]
  · simp [hinc, hwf, isDue, hcyc, hday]

/-- Witness for the monthly due-ness theorem: the sample monthly
subscription (billing day 15) against an empty store on 2024-06-15. -/
theorem monthly_dueness_witness :
    materialize [sampleMonthlySub] [] sampleDate =
      if sampleMonthlySub.billingDay ≤ sampleDate.day ∧
          List.any [] (txMatches sampleMonthlySub sampleDate) = false
      then (1, [] ++ [materializedTx sampleMonthlySub sampleDate])
      else (0, []) :=
  monthly_dueness sampleMonthlySub [] sampleDate rfl rfl (by decide) (by decide)

/-- C4: a yearly active subscription with a valid billing day is treated as
due exactly when the current month equals its billing month, the current day
has reached the billing day, and no matching transaction exists in the
current (year, month): materializing it creates exactly one transaction in
that case and none otherwise — in particular none in any other month and
none before the billing day of the billing month. -/
theorem yearly_dueness (s : Subscription) (txs : List Transaction)
    (now : SimpleDate) (hinc : s.«include» = true)
    (hcyc : s.billingCycle = BillingCycle.yearly)
    (hd1 : 1 ≤ s.billingDay) (hd2 : s.billingDay ≤ 31) :
    materialize [s] txs now =
      if now.month = s.billingMonth ∧ s.billingDay ≤ now.day ∧
          txs.any (txMatches s now) = false
      then (1, txs ++ [materializedTx s now]) else (0, txs) := by
  unfold materialize
  rw [List.foldl_cons, List.foldl_nil]
  unfold processSub
  have hwf : isWellFormed s = true := by simp [isWellFormed, hd1, hd2]
  by_cases hmon : now.month = s.billingMonth
  · by_cases hday : s.billingDay ≤ now.day
    · cases hany : txs.any (txMatches s now) with
      | false => simp [hinc, hwf, isDue, hcyc, hmon, hday, hany]
      | true => simp [hinc, hwf, isDue, hcyc, hmon, hday, hany]
    · simp [hinc, hwf, isDue, hcyc, hmon, hday]
  · simp [hinc, hwf, isDue, hcyc, hmon]

/-- Witness for the yearly due-ness theorem: the sample yearly subscription
(billing month 3, billing day 10) against an empty store on 2024-03-10. -/
theorem yearly_dueness_witness :
    materialize [sampleYearlySub] [] sampleMarchDate =
      if sampleMarchDate.month = sampleYearlySub.billingMonth ∧
          sampleYearlySub.billingDay ≤ sampleMarchDate.day ∧
          List.any [] (txMatches sampleYearlySub sampleMarchDate) = false
      then (1, [] ++ [materializedTx sampleYearlySub sampleMarchDate])
      else (0, []) :=
  yearly_dueness sampleYearlySub [] sampleMarchDate rfl rfl
    (by decide) (by decide)

/-- C5: a paused subscription (include = false) never produces a
transaction: removing it from the processed list, wherever it sits, changes
neither the created count nor the resulting store, for every date and
store. -/
theorem paused_never_materialized (pre post : List Subscription)
    (s : Subscription) (txs : List Transaction) (now : SimpleDate)
    (h : s.«include» = false) :
    materialize (pre ++ s :: post) txs now =
      materialize (pre ++ post) txs now := by
  unfold materialize
  rw [List.foldl_append, List.foldl_cons, List.foldl_append]
  have hskip : processSub now (List.foldl (processSub now) (0, txs) pre) s =
      List.foldl (processSub now) (0, txs) pre := by
    unfold processSub
    simp [h]
  rw [hskip]

/-- Witness for the paused-skip theorem: the sample paused subscription next
to an active one on 2024-06-15. -/
theorem paused_never_materialized_witness :
    materialize ([sampleMonthlySub] ++ samplePausedSub :: []) [] sampleDate =
      materialize ([sampleMonthlySub] ++ []) [] sampleDate :=
  paused_never_materialized [sampleMonthlySub] [] samplePausedSub []
    sampleDate rfl

/-- C2: evaluation at the failing input — a single auth event with a
signed-in user already invokes the materialization entry point three times,
because only the first of the three listeners registered in App.tsx consults
the hasCheckedSubs latch, so the entry point is not invoked at most once per
session lifetime. -/
theorem session_triple_invocation :
    sessionInvocations [true] = 3 ∧ ¬ sessionInvocations [true] ≤ 1 := by
  decide

/-- C7: evaluation at the failing input — when checkAndProcessSubscriptions
fails during a signed-in auth event, the first two session-start callers in
App.tsx catch and log the error, but the third caller awaits the call with
no try/catch, so its failure escapes uncaught instead of being caught and
logged. -/
theorem third_caller_uncaught :
    callerOutcomes false true true =
      (CallerOutcome.caughtLogged, CallerOutcome.caughtLogged,
        CallerOutcome.uncaught) ∧
    (callerOutcomes false true true).2.2 ≠ CallerOutcome.caughtLogged := by
  decide

/-- C6: whenever handleSubmit accepts the form, the stored billingMonth
equals the parsed user-selected month for a yearly billing cycle and the
constant 1 for a monthly one, and with the dropdown month in 1..12 the
stored value also lies in 1..12. -/
theorem handleSubmit_billingMonth (st : SubFormState) (d : SubscriptionData)
    (m : Nat) (hm : parseIntJS st.billingMonth = some m)
    (h1 : 1 ≤ m) (h2 : m ≤ 12) (hsub : handleSubmit st = some d) :
    d.billingMonth =
      some (if st.billingCycle = BillingCycle.yearly then m else 1) ∧
    ∃ k, d.billingMonth = some k ∧ 1 ≤ k ∧ k ≤ 12 := by
  unfold handleSubmit at hsub
  split at hsub
  · simp at hsub
  · rw [Option.some.injEq] at hsub
    subst hsub
    constructor
    · by_cases hc : st.billingCycle = BillingCycle.yearly
      · simp [hc, hm]
      · simp [hc]
    · by_cases hc : st.billingCycle = BillingCycle.yearly
      · exact ⟨m, by simp [hc, hm], h1, h2⟩
      · exact ⟨1, by simp [hc], by decide, by decide⟩

/-- Witness for the handleSubmit theorem: the sample yearly form state with
month 6 selected. -/
theorem handleSubmit_billingMonth_witness :
    sampleData.billingMonth =
      some (if sampleForm.billingCycle = BillingCycle.yearly then 6 else 1) ∧
    ∃ k, sampleData.billingMonth = some k ∧ 1 ≤ k ∧ k ≤ 12 :=
  handleSubmit_billingMonth sampleForm sampleData 6 (by decide) (by decide)
    (by decide) (by decide)

/-- C8: deleteLookupItem throws (leaving the collection untouched) exactly
when the collection holds at most one item or some transaction references
the name in the corresponding field, and succeeds exactly when more than one
item exists and no transaction references the name, in which case precisely
the document with the given id is removed. -/
theorem deleteLookupItem_spec (lt : LookupType) (items : List LookupItem)
    (txs : List Transaction) (id name : String) :
    ((∃ e, deleteLookupItem lt items txs id name = Except.error e) ↔
      (items.length ≤ 1 ∨
        txs.any (fun t => lookupField lt t == some name) = true)) ∧
    (deleteLookupItem lt items txs id name =
        Except.ok (items.filter (fun it => !(it.id == id))) ↔
      (1 < items.length ∧
        txs.any (fun t => lookupField lt t == some name) = false)) := by
  unfold deleteLookupItem
  by_cases h1 : items.length ≤ 1
  · rw [if_pos h1]
    refine ⟨iff_of_true ⟨_, rfl⟩ (Or.inl h1), iff_of_false (by simp) ?_⟩
    intro h
    exact absurd h.1 (not_lt.mpr h1)
  · rw [if_neg h1]
    cases h2 : txs.any (fun t => lookupField lt t == some name) with
    | true =>
      exact ⟨iff_of_true (by simp) (Or.inr rfl),
        iff_of_false (by simp) (by simp)⟩
    | false =>
      refine ⟨iff_of_false (by simp) ?_,
        iff_of_true (by simp) ⟨not_le.mp h1, rfl⟩⟩
      rintro (h | h)
      · exact h1 h
      · exact Bool.noConfusion h

lemma lookupLE_trans : ∀ a b c : LookupItem, lookupLE a b = true →
    lookupLE b c = true → lookupLE a c = true := by
  intro a b c hab hbc
  unfold lookupLE at hab hbc ⊢
  cases ha : a.isDefault <;> cases hb : b.isDefault <;>
    cases hc : c.isDefault <;> simp_all <;> exact le_trans hab hbc

lemma lookupLE_total : ∀ a b : LookupItem,
    (lookupLE a b || lookupLE b a) = true := by
  intro a b
  unfold lookupLE
  cases ha : a.isDefault <;> cases hb : b.isDefault <;>
    rcases le_total a.name b.name with h | h <;> simp [h]

/-- C9: every list delivered to a listenToLookups subscriber (and hence to
listenToCategories and listenToPaymentMethods subscribers) satisfies the
ordering invariant: items with isDefault = true all precede items with
isDefault = false, and within each group names appear in ascending order. -/
theorem deliveredLookups_ordered (docs : List RawLookupDoc) :
    (deliveredLookups docs).Pairwise (fun a b =>
      (a.isDefault = false → b.isDefault = false) ∧
      (a.isDefault = b.isDefault → a.name ≤ b.name)) := by
  have h := List.sorted_mergeSort lookupLE_trans lookupLE_total
    (docs.map toLookupItem)
  refine h.imp ?_
  intro a b hab
  unfold lookupLE at hab
  cases ha : a.isDefault <;> cases hb : b.isDefault <;> simp_all

/-- C10: seedDefaultLookups is idempotent across sequential successful runs:
a state whose seed-status document already records seeded = true is returned
unchanged, the flag is set after any run, and a second sequential run
changes nothing — in particular it adds zero category and zero
payment-method documents. -/
theorem seedDefaultLookups_idempotent (s : UserSeedState) :
    seedDefaultLookups
        { s with seedDocExists := true, seededFlag := true } =
      { s with seedDocExists := true, seededFlag := true } ∧
    (seedDefaultLookups s).seededFlag = true ∧
    seedDefaultLookups (seedDefaultLookups s) = seedDefaultLookups s := by
  refine ⟨by simp [seedDefaultLookups], ?_, ?_⟩
  · cases h : (s.seedDocExists && s.seededFlag) with
    | false => simp [seedDefaultLookups, h]
    | true =>
      simp only [Bool.and_eq_true] at h
      simp [seedDefaultLookups, h.1, h.2]
  · cases h : (s.seedDocExists && s.seededFlag) with
    | false => simp [seedDefaultLookups, h]
    | true => simp [seedDefaultLookups, h]
